import Mathlib

/-!
Verification of the factom-monitor library (package `monitor`): a shallow
embedding of its state tracker (`newHeight`), broadcaster (`notify`,
`notifyError`), constructor (`NewMonitor`) and poller loop (`run`, `Stop`),
together with theorems settling the specification's claims about them.

Machine integers (`int64`) are modelled as `Int`; Go's `%` and `/` on
integers truncate toward zero, which is `Int.tmod` / `Int.tdiv`.
Go durations are modelled as integer nanosecond counts.
-/

namespace FactomMonitor

/-- Embeds `MinuteResponse` (minuteresponse.go): the decoded `current-minute`
API response, an Observation in the spec's terms. -/
structure MinuteResponse where
  DBHeight : Int
  LeaderHeight : Int
  Minute : Int
  DBlockSeconds : Int
deriving DecidableEq, Repr

/-- The Position part of the `Monitor` struct (monitor.go): the fields
`height`, `dbheight`, `minute` guarded by `heightMtx`. -/
structure Pos where
  height : Int
  dbheight : Int
  minute : Int
deriving DecidableEq, Repr

/-- Embeds `Event` (monitor.go): payload sent to minute listeners. -/
structure Event where
  DBHeight : Int
  Height : Int
  Minute : Int
deriving DecidableEq, Repr

/-- Errors reported by `FactomdRequest` are opaque to the core; we model
them as strings. -/
abbrev Err := String

/-- A Go buffered channel viewed as a bounded queue: `cap` is the buffer
capacity fixed at `make(chan T, cap)`, `buf` the queued elements. -/
structure Chan (α : Type) where
  cap : Nat
  buf : List α
deriving DecidableEq, Repr

/-- A non-blocking send, `select { case l <- x: default: }`: the element is
appended when the buffer has space and dropped otherwise. -/
def trySend {α : Type} (c : Chan α) (a : α) : Chan α :=
  if c.buf.length < c.cap then ⟨c.cap, c.buf ++ [a]⟩ else c

/-- The listener collections of the `Monitor` struct (monitor.go), guarded
by `listenerMtx`. -/
structure Listeners where
  minuteListeners : List (Chan Event)
  heightListeners : List (Chan Int)
  dbheightListeners : List (Chan Int)
  errorListeners : List (Chan Err)
deriving DecidableEq, Repr

/-- Embeds `Monitor.notify` (monitor.go): height listeners are offered
`e.Height` only when `height` is set, dbheight listeners are offered
`e.DBHeight` only when `dbheight` is set, and every minute listener is
offered the full event; each offer is a non-blocking send. -/
def notify (ls : Listeners) (e : Event) (height dbheight : Bool) : Listeners where
  minuteListeners := ls.minuteListeners.map (fun l => trySend l e)
  heightListeners :=
    if height then ls.heightListeners.map (fun l => trySend l e.Height)
    else ls.heightListeners
  dbheightListeners :=
    if dbheight then ls.dbheightListeners.map (fun l => trySend l e.DBHeight)
    else ls.dbheightListeners
  errorListeners := ls.errorListeners

/-- Embeds `Monitor.notifyError` (monitor.go): every error listener is
offered the error with a non-blocking send. -/
def notifyError (ls : Listeners) (err : Err) : Listeners where
  minuteListeners := ls.minuteListeners
  heightListeners := ls.heightListeners
  dbheightListeners := ls.dbheightListeners
  errorListeners := ls.errorListeners.map (fun l => trySend l err)

/-- The mutable state of one `Monitor`: its Position and its listeners. -/
structure MonState where
  pos : Pos
  ls : Listeners
deriving DecidableEq, Repr

/-- Embeds `Monitor.newHeight` (monitor.go). The raw minute is reduced
`resp.Minute %= 10` (Go `%` is `Int.tmod`); when `(LeaderHeight, Minute)`
lexicographically exceeds the stored `(height, minute)` the whole Position
(including `dbheight`) is overwritten, an `Event` is built and `notify` is
called with the `newHeight` / `newDBHeight` flags; otherwise nothing
happens. Returns the updated state and the function's boolean result. -/
def newHeight (s : MonState) (resp : MinuteResponse) : MonState × Bool :=
  let rm := Int.tmod resp.Minute 10
  if resp.LeaderHeight > s.pos.height ∨
      (resp.LeaderHeight = s.pos.height ∧ rm > s.pos.minute) then
    let nh : Bool := decide (resp.LeaderHeight > s.pos.height)
    let ndb : Bool := decide (resp.DBHeight > s.pos.dbheight)
    let e : Event := ⟨resp.DBHeight, resp.LeaderHeight, rm⟩
    (⟨⟨resp.LeaderHeight, resp.DBHeight, rm⟩, notify s.ls e nh ndb⟩, true)
  else
    (s, false)

/-- Embeds the state initialisation of `NewMonitor` (monitor.go): the seed
response's fields are stored verbatim — in particular the seed minute is
NOT reduced modulo 10 — and the listener collections start empty. -/
def NewMonitor (seed : MinuteResponse) : MonState :=
  ⟨⟨seed.LeaderHeight, seed.DBHeight, seed.Minute⟩, ⟨[], [], [], []⟩⟩

/-- Embeds `Monitor.NewMinuteListener`: appends a fresh channel of
capacity 25. -/
def NewMinuteListener (s : MonState) : MonState :=
  { s with ls := { s.ls with minuteListeners := s.ls.minuteListeners ++ [⟨25, []⟩] } }

/-- Embeds `Monitor.NewHeightListener`: appends a fresh channel of
capacity 6. -/
def NewHeightListener (s : MonState) : MonState :=
  { s with ls := { s.ls with heightListeners := s.ls.heightListeners ++ [⟨6, []⟩] } }

/-- Embeds `Monitor.NewDBHeightListener`: appends a fresh channel of
capacity 6. -/
def NewDBHeightListener (s : MonState) : MonState :=
  { s with ls := { s.ls with dbheightListeners := s.ls.dbheightListeners ++ [⟨6, []⟩] } }

/-- Embeds `Monitor.NewErrorListener`: appends a fresh channel of
capacity 6. -/
def NewErrorListener (s : MonState) : MonState :=
  { s with ls := { s.ls with errorListeners := s.ls.errorListeners ++ [⟨6, []⟩] } }

/-- Feeding a sequence of successful Observations to the state tracker,
one `newHeight` call per Observation. -/
def processTrace (s : MonState) (rs : List MinuteResponse) : MonState :=
  rs.foldl (fun t r => (newHeight t r).1) s

/-- The lexicographic progress test of `newHeight`, as a predicate:
the observation's `(LeaderHeight, Minute % 10)` strictly exceeds the
stored `(height, minute)`. -/
def lexExceeds (p : Pos) (resp : MinuteResponse) : Prop :=
  resp.LeaderHeight > p.height ∨
    (resp.LeaderHeight = p.height ∧ Int.tmod resp.Minute 10 > p.minute)

instance (p : Pos) (resp : MinuteResponse) : Decidable (lexExceeds p resp) :=
  inferInstanceAs (Decidable (resp.LeaderHeight > p.height ∨
    (resp.LeaderHeight = p.height ∧ Int.tmod resp.Minute 10 > p.minute)))

/-- One nanosecond count per Go `time.Second`. -/
def nsPerSecond : Int := 1000000000

/-- State local to `Monitor.run` (monitor.go): `nominal` is the local
variable `minute := time.Duration(resp.DBlockSeconds) * time.Second / 10`,
computed once from the seed response before the loop; `last` is the
`last` timestamp; `mon` the monitor state shared with the tracker. -/
structure PollerState where
  nominal : Int
  last : Int
  mon : MonState
deriving DecidableEq, Repr

/-- Entry into `Monitor.run`: `minute` is computed from the seed response's
`DBlockSeconds` (Go integer division truncates toward zero) and `last`
is set to the current time. -/
def runInit (seed : MinuteResponse) (now : Int) : PollerState :=
  ⟨Int.tdiv (seed.DBlockSeconds * nsPerSecond) 10, now, NewMonitor seed⟩

/-- The scheduling outcome of one loop iteration: either return to polling
once per interval, or enter the adaptive sleep of the given duration. -/
inductive Sched
  | noSleep
  | sleep (d : Int)
deriving DecidableEq, Repr

/-- Embeds the body of one iteration of `Monitor.run` (monitor.go) after
the top select has fired, given the request's outcome `res` and the
current time `now`. On error: `notifyError` and continue. On success:
`newHeight`; when it reports progress, `diff := minute - time.Since(last)`
is replaced by its absolute value, `last` is reset, and when
`diff < Interval` the loop sleeps `minute - Interval`; otherwise it keeps
polling at the interval. -/
def runStep (interval : Int) (ps : PollerState) (res : Except Err MinuteResponse)
    (now : Int) : PollerState × Sched :=
  match res with
  | .error e =>
      ({ ps with mon := ⟨ps.mon.pos, notifyError ps.mon.ls e⟩ }, .noSleep)
  | .ok resp =>
      let r := newHeight ps.mon resp
      if r.2 then
        let diff := ps.nominal - (now - ps.last)
        let adiff := if diff < 0 then -diff else diff
        let ps' : PollerState := ⟨ps.nominal, now, r.1⟩
        if adiff < interval then (ps', .sleep (ps.nominal - interval))
        else (ps', .noSleep)
      else
        ({ ps with mon := r.1 }, .noSleep)

instance : DecidableEq (Except Err MinuteResponse) := fun a b =>
  match a, b with
  | .error x, .error y =>
      if h : x = y then isTrue (by rw [h]) else isFalse (by simp [h])
  | .error _, .ok _ => isFalse (by simp)
  | .ok _, .error _ => isFalse (by simp)
  | .ok x, .ok y =>
      if h : x = y then isTrue (by rw [h]) else isFalse (by simp [h])

/-- Program counter of the `run` loop: at the top select, waiting on an
issued request, inside the adaptive-sleep select, or returned. -/
inductive PC
  | top
  | inflight (res : Except Err MinuteResponse)
  | sleeping
  | done
deriving DecidableEq, Repr

/-- The run loop plus the shared `close` channel: `closed` records whether
`Stop` has closed it. -/
structure RunState where
  pc : PC
  closed : Bool
  ps : PollerState
deriving DecidableEq, Repr

/-- Scheduler actions resolving the loop's nondeterminism: `stop` is
`Monitor.Stop` closing the channel (idempotent via `sync.Once`);
`observeClose` is a select at a wait point taking the `<-m.close` branch
(only enabled once closed — a closed channel is always ready);
`tickFire res` is the top select taking the ticker branch and the issued
request eventually returning `res`; `complete now` is the in-flight
request finishing at time `now` and the iteration body running;
`wake` is the adaptive sleep's timer firing. Go's `select` picks randomly
among ready branches, so `tickFire` stays enabled even when closed. -/
inductive Act
  | stop
  | observeClose
  | tickFire (res : Except Err MinuteResponse)
  | complete (now : Int)
  | wake
deriving DecidableEq, Repr

/-- Small-step semantics of `Monitor.run` together with `Monitor.Stop`
(monitor.go); actions not enabled in the current state leave it
unchanged. -/
def loopStep (interval : Int) (s : RunState) (a : Act) : RunState :=
  match a, s.pc with
  | .stop, _ => { s with closed := true }
  | .observeClose, .top => if s.closed then { s with pc := .done } else s
  | .observeClose, .sleeping => if s.closed then { s with pc := .done } else s
  | .tickFire res, .top => { s with pc := .inflight res }
  | .complete now, .inflight res =>
      let r := runStep interval s.ps res now
      { s with ps := r.1,
               pc := match r.2 with | .sleep _ => .sleeping | .noSleep => .top }
  | .wake, .sleeping => { s with pc := .top }
  | _, _ => s

/-- Iterating `loopStep` over a list of actions. -/
def loopRun (interval : Int) (s : RunState) (acts : List Act) : RunState :=
  acts.foldl (loopStep interval) s

/-! Helper lemmas characterising `newHeight` on the two sides of its
lexicographic progress test. -/

theorem newHeight_of_lex {s : MonState} {resp : MinuteResponse}
    (h : lexExceeds s.pos resp) :
    newHeight s resp =
      (⟨⟨resp.LeaderHeight, resp.DBHeight, Int.tmod resp.Minute 10⟩,
        notify s.ls ⟨resp.DBHeight, resp.LeaderHeight, Int.tmod resp.Minute 10⟩
          (decide (resp.LeaderHeight > s.pos.height))
          (decide (resp.DBHeight > s.pos.dbheight))⟩, true) := by
  unfold lexExceeds at h
  simp only [newHeight]
  rw [if_pos h]

theorem newHeight_of_not_lex {s : MonState} {resp : MinuteResponse}
    (h : ¬ lexExceeds s.pos resp) :
    newHeight s resp = (s, false) := by
  unfold lexExceeds at h
  simp only [newHeight]
  rw [if_neg h]

/-- C1: processing an Observation through `newHeight` emits a
minute-or-stronger Transition — the call reports progress — exactly when
its `(LeaderHeight, Minute % 10)` lexicographically strictly exceeds the
stored `(height, minute)`; the stored Position changes only in that case,
and then `(height, minute)` genuinely moves; in particular an Observation
with raw minute 10 and unchanged height (the stored minute being
non-negative) never by itself produces a Transition. -/
theorem C1_transition_iff_lexExceeds (s : MonState) (resp : MinuteResponse) :
    ((newHeight s resp).2 = true ↔ lexExceeds s.pos resp)
    ∧ ((newHeight s resp).1.pos ≠ s.pos → lexExceeds s.pos resp)
    ∧ (lexExceeds s.pos resp →
        (newHeight s resp).1.pos =
          ⟨resp.LeaderHeight, resp.DBHeight, Int.tmod resp.Minute 10⟩ ∧
        ((newHeight s resp).1.pos.height ≠ s.pos.height ∨
         (newHeight s resp).1.pos.minute ≠ s.pos.minute))
    ∧ (resp.Minute = 10 → resp.LeaderHeight = s.pos.height → 0 ≤ s.pos.minute →
        (newHeight s resp).2 = false) := by
  by_cases h : lexExceeds s.pos resp
  · rw [newHeight_of_lex h]
    refine ⟨by simp [h], fun _ => h, fun _ => ⟨rfl, ?_⟩, ?_⟩
    · rcases h with h1 | ⟨h1, h2⟩
      · exact Or.inl (by simpa using Int.ne_of_gt h1)
      · exact Or.inr (by simpa using Int.ne_of_gt h2)
    · intro hm hl hnn
      exfalso
      rcases h with h1 | ⟨_, h2⟩
      · omega
      · rw [hm] at h2
        have h0 : Int.tmod 10 10 = 0 := by decide
        omega
  · rw [newHeight_of_not_lex h]
    exact ⟨by simp [h], by simp, fun hx => absurd hx h, fun _ _ _ => rfl⟩

/-- Witness for C1 at concrete inputs: a raw minute 10 at the stored
height 5, minute 5 produces no transition, while a height advance with raw
minute 10 does and stores minute 0. -/
theorem C1_transition_iff_lexExceeds_witness :
    (newHeight ⟨⟨5, 5, 5⟩, ⟨[], [], [], []⟩⟩ ⟨5, 5, 10, 600⟩).2 = false
    ∧ (newHeight ⟨⟨5, 5, 5⟩, ⟨[], [], [], []⟩⟩ ⟨6, 6, 10, 600⟩).1.pos = ⟨6, 6, 0⟩ :=
  ⟨(C1_transition_iff_lexExceeds ⟨⟨5, 5, 5⟩, ⟨[], [], [], []⟩⟩ ⟨5, 5, 10, 600⟩).2.2.2
      rfl rfl (by decide),
   ((C1_transition_iff_lexExceeds ⟨⟨5, 5, 5⟩, ⟨[], [], [], []⟩⟩ ⟨6, 6, 10, 600⟩).2.2.1
      (by decide)).1⟩

/-- C2 counterexample: stored Position `(height 5, dbheight 4, minute 5)`
with one committed-height subscriber; the Observation
`(DBHeight 5, LeaderHeight 5, Minute 5)` has committed-height progress
(5 > 4) but no lexicographic `(height, minute)` progress — the code leaves
the stored committed height at 4 and delivers nothing, contradicting the
claim that the committed height is updated and a committed-height
Transition delivered. -/
theorem C2_counterexample :
    ((⟨5, 5, 5, 600⟩ : MinuteResponse).DBHeight >
        (⟨⟨5, 4, 5⟩, ⟨[], [], [⟨6, []⟩], []⟩⟩ : MonState).pos.dbheight)
    ∧ ¬ lexExceeds ⟨5, 4, 5⟩ ⟨5, 5, 5, 600⟩
    ∧ (newHeight ⟨⟨5, 4, 5⟩, ⟨[], [], [⟨6, []⟩], []⟩⟩ ⟨5, 5, 5, 600⟩).1.pos.dbheight = 4
    ∧ (newHeight ⟨⟨5, 4, 5⟩, ⟨[], [], [⟨6, []⟩], []⟩⟩
        ⟨5, 5, 5, 600⟩).1.ls.dbheightListeners = [⟨6, []⟩] := by
  decide

/-- C2 amended: committed-height progress alone, without lexicographic
`(height, minute)` progress, leaves the whole monitor state (including the
stored committed height) unchanged and delivers nothing; the stored
committed height is updated and offered to every committed-height
subscriber only when lexicographic progress co-occurs. -/
theorem C2_dbheight_requires_lex (s : MonState) (resp : MinuteResponse) :
    (¬ lexExceeds s.pos resp → newHeight s resp = (s, false))
    ∧ (lexExceeds s.pos resp → resp.DBHeight > s.pos.dbheight →
        (newHeight s resp).1.pos.dbheight = resp.DBHeight ∧
        (newHeight s resp).1.ls.dbheightListeners =
          s.ls.dbheightListeners.map (fun l => trySend l resp.DBHeight)) := by
  refine ⟨fun h => newHeight_of_not_lex h, fun h hdb => ?_⟩
  rw [newHeight_of_lex h]
  exact ⟨rfl, by simp [notify, hdb]⟩

/-- Witness for C2 amended: with lexicographic progress (minute 5 → 6) and
committed-height progress (4 → 5) the stored committed height becomes 5
and the committed-height subscriber receives 5; without lexicographic
progress the state is unchanged. -/
theorem C2_dbheight_requires_lex_witness :
    (newHeight ⟨⟨5, 4, 5⟩, ⟨[], [], [⟨6, []⟩], []⟩⟩ ⟨5, 5, 6, 600⟩).1.pos.dbheight = 5
    ∧ (newHeight ⟨⟨5, 4, 5⟩, ⟨[], [], [⟨6, []⟩], []⟩⟩
        ⟨5, 5, 6, 600⟩).1.ls.dbheightListeners = [⟨6, [5]⟩]
    ∧ newHeight ⟨⟨5, 4, 5⟩, ⟨[], [], [⟨6, []⟩], []⟩⟩ ⟨5, 5, 5, 600⟩ =
        (⟨⟨5, 4, 5⟩, ⟨[], [], [⟨6, []⟩], []⟩⟩, false) :=
  ⟨((C2_dbheight_requires_lex ⟨⟨5, 4, 5⟩, ⟨[], [], [⟨6, []⟩], []⟩⟩
      ⟨5, 5, 6, 600⟩).2 (by decide) (by decide)).1,
   (((C2_dbheight_requires_lex ⟨⟨5, 4, 5⟩, ⟨[], [], [⟨6, []⟩], []⟩⟩
      ⟨5, 5, 6, 600⟩).2 (by decide) (by decide)).2).trans (by decide),
   (C2_dbheight_requires_lex ⟨⟨5, 4, 5⟩, ⟨[], [], [⟨6, []⟩], []⟩⟩
      ⟨5, 5, 5, 600⟩).1 (by decide)⟩

/-- C3 counterexample: a seed Observation with raw minute 10 — inside the
claimed range 0–10 — is stored verbatim by `NewMonitor`, so the state
reached by construction alone (empty Observation sequence) has stored
minute 10, outside `[0, 9]`. -/
theorem C3_counterexample :
    (0 ≤ (⟨7, 8, 10, 600⟩ : MinuteResponse).Minute
      ∧ (⟨7, 8, 10, 600⟩ : MinuteResponse).Minute ≤ 10)
    ∧ ¬ (0 ≤ (processTrace (NewMonitor ⟨7, 8, 10, 600⟩) []).pos.minute
          ∧ (processTrace (NewMonitor ⟨7, 8, 10, 600⟩) []).pos.minute ≤ 9) := by
  decide

/-- One `newHeight` step keeps the stored minute inside `[0, 9]` as long as
the Observation's raw minute is in `[0, 10]`. -/
theorem minute_range_step (s : MonState) (r : MinuteResponse)
    (hs : 0 ≤ s.pos.minute ∧ s.pos.minute ≤ 9)
    (hr : 0 ≤ r.Minute ∧ r.Minute ≤ 10) :
    0 ≤ (newHeight s r).1.pos.minute ∧ (newHeight s r).1.pos.minute ≤ 9 := by
  by_cases h : lexExceeds s.pos r
  · rw [newHeight_of_lex h]
    dsimp only
    have h1 : 0 ≤ Int.tmod r.Minute 10 := Int.tmod_nonneg _ hr.1
    have h2 : Int.tmod r.Minute 10 < 10 :=
      Int.tmod_lt_of_pos r.Minute (by decide)
    exact ⟨h1, by omega⟩
  · rw [newHeight_of_not_lex h]
    exact hs

/-- C3 amended: with the seed raw minute restricted to `[0, 9]` (the
constructor stores it unnormalized, so a seed minute of 10 would be stored
as 10) and every subsequent Observation's raw minute in `[0, 10]`, the
stored minute lies in `[0, 9]` in every reachable state. -/
theorem C3_minute_range_invariant (seed : MinuteResponse)
    (trace : List MinuteResponse)
    (hseed : 0 ≤ seed.Minute ∧ seed.Minute ≤ 9)
    (htrace : ∀ r ∈ trace, 0 ≤ r.Minute ∧ r.Minute ≤ 10) :
    0 ≤ (processTrace (NewMonitor seed) trace).pos.minute
    ∧ (processTrace (NewMonitor seed) trace).pos.minute ≤ 9 := by
  have step : ∀ (s : MonState) (ts : List MinuteResponse),
      (0 ≤ s.pos.minute ∧ s.pos.minute ≤ 9) →
      (∀ r ∈ ts, 0 ≤ r.Minute ∧ r.Minute ≤ 10) →
      0 ≤ (processTrace s ts).pos.minute ∧ (processTrace s ts).pos.minute ≤ 9 := by
    intro s ts
    induction ts generalizing s with
    | nil => intro hs _; exact hs
    | cons r rs ih =>
        intro hs hts
        have h1 := minute_range_step s r hs (hts r (by simp))
        have h2 : ∀ x ∈ rs, 0 ≤ x.Minute ∧ x.Minute ≤ 10 :=
          fun x hx => hts x (by simp [hx])
        simpa [processTrace] using ih ((newHeight s r).1) h1 h2
  exact step (NewMonitor seed) trace (by simpa [NewMonitor] using hseed) htrace

/-- Witness for C3 amended at a concrete run: seed minute 5, then a height
advance carrying raw minute 10, ends with stored minute in range. -/
theorem C3_minute_range_invariant_witness :
    0 ≤ (processTrace (NewMonitor ⟨5, 5, 5, 600⟩) [⟨6, 6, 10, 600⟩]).pos.minute
    ∧ (processTrace (NewMonitor ⟨5, 5, 5, 600⟩) [⟨6, 6, 10, 600⟩]).pos.minute ≤ 9 :=
  C3_minute_range_invariant ⟨5, 5, 5, 600⟩ [⟨6, 6, 10, 600⟩] (by decide) (by decide)

/-- C4 counterexample: from stored Position
`(height 5, dbheight 5, minute 5)`, the Observation
`(DBHeight 3, LeaderHeight 5, Minute 6)` makes lexicographic progress, and
processing it overwrites the stored committed height with 3 — a strict
decrease — contradicting the claim that the stored committed height never
decreases across `newHeight` calls. -/
theorem C4_counterexample :
    (⟨⟨5, 5, 5⟩, ⟨[], [], [], []⟩⟩ : MonState).pos.dbheight = 5
    ∧ (newHeight ⟨⟨5, 5, 5⟩, ⟨[], [], [], []⟩⟩ ⟨3, 5, 6, 600⟩).1.pos.dbheight = 3
    ∧ ¬ ((⟨⟨5, 5, 5⟩, ⟨[], [], [], []⟩⟩ : MonState).pos.dbheight ≤
          (newHeight ⟨⟨5, 5, 5⟩, ⟨[], [], [], []⟩⟩ ⟨3, 5, 6, 600⟩).1.pos.dbheight) := by
  decide

/-- C4 amended: across one `newHeight` call the stored height never
decreases, unconditionally; the stored committed height never decreases
provided the Observation's `DBHeight` is at least the stored committed
height (which the wire contract's non-decreasing responses guarantee —
the code overwrites it unconditionally on lexicographic progress). -/
theorem C4_monotone_position (s : MonState) (resp : MinuteResponse) :
    s.pos.height ≤ (newHeight s resp).1.pos.height
    ∧ (s.pos.dbheight ≤ resp.DBHeight →
        s.pos.dbheight ≤ (newHeight s resp).1.pos.dbheight) := by
  by_cases h : lexExceeds s.pos resp
  · rw [newHeight_of_lex h]
    refine ⟨?_, fun hdb => hdb⟩
    rcases h with h1 | ⟨h1, _⟩
    · exact le_of_lt h1
    · exact le_of_eq h1.symm
  · rw [newHeight_of_not_lex h]
    exact ⟨le_refl _, fun _ => le_refl _⟩

/-- Witness for C4 amended at a concrete input with both height and
committed-height progress. -/
theorem C4_monotone_position_witness :
    (⟨⟨5, 4, 5⟩, ⟨[], [], [], []⟩⟩ : MonState).pos.height ≤
      (newHeight ⟨⟨5, 4, 5⟩, ⟨[], [], [], []⟩⟩ ⟨5, 6, 0, 600⟩).1.pos.height
    ∧ (⟨⟨5, 4, 5⟩, ⟨[], [], [], []⟩⟩ : MonState).pos.dbheight ≤
      (newHeight ⟨⟨5, 4, 5⟩, ⟨[], [], [], []⟩⟩ ⟨5, 6, 0, 600⟩).1.pos.dbheight :=
  ⟨(C4_monotone_position ⟨⟨5, 4, 5⟩, ⟨[], [], [], []⟩⟩ ⟨5, 6, 0, 600⟩).1,
   (C4_monotone_position ⟨⟨5, 4, 5⟩, ⟨[], [], [], []⟩⟩ ⟨5, 6, 0, 600⟩).2 (by decide)⟩

/-- A non-decreasing integer list with all entries at most `a` stays
non-decreasing when `a` is appended. -/
theorem chain'_snoc_of_forall_le {l : List Int} {a : Int}
    (hc : List.Chain' (· ≤ ·) l) (hb : ∀ x ∈ l, x ≤ a) :
    List.Chain' (· ≤ ·) (l ++ [a]) := by
  refine hc.append (List.chain'_singleton a) ?_
  intro x hx y hy
  simp only [List.head?_cons, Option.mem_def, Option.some.injEq] at hy
  obtain ⟨hne, rfl⟩ := List.mem_getLast?_eq_getLast hx
  rw [← hy]
  exact hb _ (List.getLast_mem hne)

/-- A non-blocking send of a value at least as large as every queued entry
preserves sortedness and bounds the queue by that value. -/
theorem trySend_chain_bound {c : Chan Int} {v bound : Int}
    (hchain : List.Chain' (· ≤ ·) c.buf) (hbd : ∀ x ∈ c.buf, x ≤ bound)
    (hv : bound ≤ v) :
    List.Chain' (· ≤ ·) (trySend c v).buf ∧ ∀ x ∈ (trySend c v).buf, x ≤ v := by
  unfold trySend
  split
  · dsimp only
    constructor
    · exact chain'_snoc_of_forall_le hchain (fun x hx => le_trans (hbd x hx) hv)
    · intro x hx
      rcases List.mem_append.mp hx with hx | hx
      · exact le_trans (hbd x hx) hv
      · rw [List.mem_singleton.mp hx]
  · exact ⟨hchain, fun x hx => le_trans (hbd x hx) hv⟩

/-- Invariant: every height subscriber's queue is non-decreasing and
bounded by the stored height. -/
def HInv (s : MonState) : Prop :=
  ∀ c ∈ s.ls.heightListeners,
    List.Chain' (· ≤ ·) c.buf ∧ ∀ x ∈ c.buf, x ≤ s.pos.height

/-- Invariant: every committed-height subscriber's queue is non-decreasing
and bounded by the stored committed height. -/
def DInv (s : MonState) : Prop :=
  ∀ c ∈ s.ls.dbheightListeners,
    List.Chain' (· ≤ ·) c.buf ∧ ∀ x ∈ c.buf, x ≤ s.pos.dbheight

/-- One `newHeight` call preserves the height-subscriber invariant,
unconditionally. -/
theorem HInv_step {s : MonState} (r : MinuteResponse) (hs : HInv s) :
    HInv (newHeight s r).1 := by
  by_cases h : lexExceeds s.pos r
  · rw [newHeight_of_lex h]
    by_cases hh : r.LeaderHeight > s.pos.height
    · intro c hc
      simp only [notify, List.mem_map, decide_eq_true_eq, hh, if_true] at hc
      obtain ⟨c₀, hc₀, rfl⟩ := hc
      have h₀ := hs c₀ hc₀
      exact trySend_chain_bound h₀.1 h₀.2 (le_of_lt hh)
    · have hEq : r.LeaderHeight = s.pos.height := by
        rcases h with h1 | ⟨h1, _⟩
        · exact absurd h1 hh
        · exact h1
      intro c hc
      simp only [notify, decide_eq_true_eq, hh, if_false] at hc
      have h₀ := hs c hc
      exact ⟨h₀.1, fun x hx => by dsimp only; rw [hEq]; exact h₀.2 x hx⟩
  · rw [newHeight_of_not_lex h]
    exact hs

/-- One `newHeight` call preserves the committed-height-subscriber
invariant, provided the Observation's `DBHeight` is at least the stored
committed height. -/
theorem DInv_step {s : MonState} (r : MinuteResponse) (hd : DInv s)
    (hdb : s.pos.dbheight ≤ r.DBHeight) : DInv (newHeight s r).1 := by
  by_cases h : lexExceeds s.pos r
  · rw [newHeight_of_lex h]
    by_cases hh : r.DBHeight > s.pos.dbheight
    · intro c hc
      simp only [notify, List.mem_map, decide_eq_true_eq, hh, if_true] at hc
      obtain ⟨c₀, hc₀, rfl⟩ := hc
      have h₀ := hd c₀ hc₀
      exact trySend_chain_bound h₀.1 h₀.2 (le_of_lt hh)
    · intro c hc
      simp only [notify, decide_eq_true_eq, hh, if_false] at hc
      have h₀ := hd c hc
      exact ⟨h₀.1, fun x hx => le_trans (h₀.2 x hx) hdb⟩
  · rw [newHeight_of_not_lex h]
    exact hd

/-- C5 counterexample: starting from a monitor seeded at
`(height 5, committed height 10, minute 5)` with one committed-height
subscriber, the Observation sequence with `DBHeight` values 11, 3, 4 (all
making minute progress) delivers committed heights 11 then 4 — a
decreasing delivered sequence, contradicting the claim as stated for
committed-height subscribers. -/
theorem C5_counterexample :
    (processTrace (NewDBHeightListener (NewMonitor ⟨10, 5, 5, 600⟩))
        [⟨11, 5, 6, 600⟩, ⟨3, 5, 7, 600⟩, ⟨4, 5, 8, 600⟩]).ls.dbheightListeners =
      [⟨6, [11, 4]⟩]
    ∧ ¬ List.Chain' (· ≤ ·) ([11, 4] : List Int) := by
  constructor
  · decide
  · simp [List.chain'_cons]

/-- C5 amended: the sequence of height values delivered to any height
subscriber is non-decreasing for every Observation sequence; the sequence
of committed-height values delivered to any committed-height subscriber is
non-decreasing provided the Observations carry non-decreasing `DBHeight`
values starting from the stored committed height (as the wire contract
expects of the node). -/
theorem C5_delivered_monotone (s : MonState) (trace : List MinuteResponse) :
    (HInv s → ∀ c ∈ (processTrace s trace).ls.heightListeners,
        List.Chain' (· ≤ ·) c.buf)
    ∧ (DInv s →
        List.Chain' (· ≤ ·)
          (s.pos.dbheight :: trace.map MinuteResponse.DBHeight) →
        ∀ c ∈ (processTrace s trace).ls.dbheightListeners,
          List.Chain' (· ≤ ·) c.buf) := by
  constructor
  · intro hs
    have fold : ∀ (ts : List MinuteResponse) (t : MonState),
        HInv t → HInv (processTrace t ts) := by
      intro ts
      induction ts with
      | nil => intro t ht; exact ht
      | cons r rs ih =>
          intro t ht
          simpa [processTrace] using ih _ (HInv_step r ht)
    exact fun c hc => (fold trace s hs c hc).1
  · intro hd hchain
    have fold : ∀ (ts : List MinuteResponse) (t : MonState), DInv t →
        List.Chain' (· ≤ ·) (t.pos.dbheight :: ts.map MinuteResponse.DBHeight) →
        DInv (processTrace t ts) := by
      intro ts
      induction ts with
      | nil => intro t ht _; exact ht
      | cons r rs ih =>
          intro t ht hch
          rw [List.map_cons] at hch
          have h1 : t.pos.dbheight ≤ r.DBHeight := (List.chain'_cons.mp hch).1
          have h2 : List.Chain' (· ≤ ·)
              (r.DBHeight :: rs.map MinuteResponse.DBHeight) :=
            (List.chain'_cons.mp hch).2
          have hstep := DInv_step r ht h1
          have h3 : (newHeight t r).1.pos.dbheight = t.pos.dbheight ∨
              (newHeight t r).1.pos.dbheight = r.DBHeight := by
            by_cases h : lexExceeds t.pos r
            · right; rw [newHeight_of_lex h]
            · left; rw [newHeight_of_not_lex h]
          have h4 : List.Chain' (· ≤ ·)
              ((newHeight t r).1.pos.dbheight :: rs.map MinuteResponse.DBHeight) := by
            rcases h3 with he | he <;> rw [he]
            · refine List.chain'_cons'.mpr ⟨?_, (List.chain'_cons'.mp h2).2⟩
              intro y hy
              exact le_trans h1 ((List.chain'_cons'.mp h2).1 y hy)
            · exact h2
          simpa [processTrace] using ih _ hstep h4
    exact fun c hc => (fold trace s hd hchain c hc).1

/-- Witness for C5 amended: a fresh monitor with one height and one
committed-height subscriber, fed one height-advancing Observation, shows
the delivered queues `[6]` and `[11]` are non-decreasing. -/
theorem C5_delivered_monotone_witness :
    (processTrace (NewHeightListener (NewDBHeightListener (NewMonitor ⟨10, 5, 5, 600⟩)))
        [⟨11, 6, 0, 600⟩]).ls.heightListeners = [⟨6, [6]⟩]
    ∧ List.Chain' (· ≤ ·) (Chan.buf (⟨6, [6]⟩ : Chan Int))
    ∧ List.Chain' (· ≤ ·) (Chan.buf (⟨6, [11]⟩ : Chan Int)) :=
  ⟨by decide,
   (C5_delivered_monotone
      (NewHeightListener (NewDBHeightListener (NewMonitor ⟨10, 5, 5, 600⟩)))
      [⟨11, 6, 0, 600⟩]).1
     (by simp [HInv, NewMonitor, NewHeightListener, NewDBHeightListener])
     ⟨6, [6]⟩ (by decide),
   (C5_delivered_monotone
      (NewHeightListener (NewDBHeightListener (NewMonitor ⟨10, 5, 5, 600⟩)))
      [⟨11, 6, 0, 600⟩]).2
     (by simp [DInv, NewMonitor, NewHeightListener, NewDBHeightListener])
     (by norm_num [NewMonitor, NewHeightListener, NewDBHeightListener, List.chain'_cons])
     ⟨6, [11]⟩ (by decide)⟩

/-- C6: routing of a classified Transition. On lexicographic progress the
Event (committed height, height, normalized minute) is offered to every
minute subscriber; exactly the height integer is offered to every height
subscriber, and only when the height advanced; exactly the committed-height
integer is offered to every committed-height subscriber, and only when the
committed height advanced; error subscribers are untouched. Without
progress no subscriber is touched, and every request failure is offered to
every error subscriber, the other kinds untouched. -/
theorem C6_delivery_routing (s : MonState) (resp : MinuteResponse) :
    (lexExceeds s.pos resp →
      (newHeight s resp).1.ls.minuteListeners =
        s.ls.minuteListeners.map (fun l =>
          trySend l ⟨resp.DBHeight, resp.LeaderHeight, Int.tmod resp.Minute 10⟩)
      ∧ (newHeight s resp).1.ls.heightListeners =
          (if resp.LeaderHeight > s.pos.height
           then s.ls.heightListeners.map (fun l => trySend l resp.LeaderHeight)
           else s.ls.heightListeners)
      ∧ (newHeight s resp).1.ls.dbheightListeners =
          (if resp.DBHeight > s.pos.dbheight
           then s.ls.dbheightListeners.map (fun l => trySend l resp.DBHeight)
           else s.ls.dbheightListeners)
      ∧ (newHeight s resp).1.ls.errorListeners = s.ls.errorListeners)
    ∧ (¬ lexExceeds s.pos resp → (newHeight s resp).1.ls = s.ls)
    ∧ (∀ (ls : Listeners) (err : Err),
        (notifyError ls err).errorListeners =
          ls.errorListeners.map (fun l => trySend l err)
        ∧ (notifyError ls err).minuteListeners = ls.minuteListeners
        ∧ (notifyError ls err).heightListeners = ls.heightListeners
        ∧ (notifyError ls err).dbheightListeners = ls.dbheightListeners) := by
  refine ⟨fun h => ?_, fun h => by rw [newHeight_of_not_lex h], fun ls err => ⟨rfl, rfl, rfl, rfl⟩⟩
  rw [newHeight_of_lex h]
  refine ⟨rfl, ?_, ?_⟩
  · by_cases hh : resp.LeaderHeight > s.pos.height
    · simp [notify, hh]
    · simp [notify, hh]
  · by_cases hdb : resp.DBHeight > s.pos.dbheight
    · simp [notify, hdb]
    · simp [notify, hdb]

/-- Witness for C6 at a concrete height-advancing Observation with one
subscriber of each kind: the minute subscriber gets the Event, the height
subscriber gets 6, the committed-height subscriber gets 11, error
subscribers are untouched. -/
theorem C6_delivery_routing_witness :
    (newHeight ⟨⟨5, 10, 5⟩, ⟨[⟨25, []⟩], [⟨6, []⟩], [⟨6, []⟩], [⟨6, []⟩]⟩⟩
        ⟨11, 6, 0, 600⟩).1.ls.minuteListeners = [⟨25, [⟨11, 6, 0⟩]⟩]
    ∧ (newHeight ⟨⟨5, 10, 5⟩, ⟨[⟨25, []⟩], [⟨6, []⟩], [⟨6, []⟩], [⟨6, []⟩]⟩⟩
        ⟨11, 6, 0, 600⟩).1.ls.heightListeners = [⟨6, [6]⟩]
    ∧ (newHeight ⟨⟨5, 10, 5⟩, ⟨[⟨25, []⟩], [⟨6, []⟩], [⟨6, []⟩], [⟨6, []⟩]⟩⟩
        ⟨11, 6, 0, 600⟩).1.ls.errorListeners = [⟨6, []⟩] := by
  have h := (C6_delivery_routing
    ⟨⟨5, 10, 5⟩, ⟨[⟨25, []⟩], [⟨6, []⟩], [⟨6, []⟩], [⟨6, []⟩]⟩⟩
    ⟨11, 6, 0, 600⟩).1 (by decide)
  exact ⟨h.1.trans (by decide), (h.2.1.trans (by decide)), h.2.2.2.trans (by decide)⟩

/-- C7: sends never block and subscribers are isolated. `trySend` is a
total function of the one channel it targets: a full buffer drops the
value and leaves the channel unchanged, a buffer with space receives it;
in `notify` the result at each subscriber index depends only on that
subscriber's own channel, so one full subscriber cannot affect another. -/
theorem C7_nonblocking_isolation (ls : Listeners) (e : Event) (hb db : Bool)
    (c : Chan Event) (i : Nat) :
    ((c.buf.length < c.cap → (trySend c e).buf = c.buf ++ [e])
      ∧ (¬ c.buf.length < c.cap → trySend c e = c))
    ∧ (notify ls e hb db).minuteListeners[i]? =
        (ls.minuteListeners[i]?).map (fun l => trySend l e)
    ∧ (hb = true → (notify ls e hb db).heightListeners[i]? =
        (ls.heightListeners[i]?).map (fun l => trySend l e.Height))
    ∧ (db = true → (notify ls e hb db).dbheightListeners[i]? =
        (ls.dbheightListeners[i]?).map (fun l => trySend l e.DBHeight)) := by
  refine ⟨⟨fun h => by simp [trySend, h], fun h => by simp [trySend, h]⟩, ?_, ?_, ?_⟩
  · simp [notify, List.getElem?_map]
  · intro h; simp [notify, h, List.getElem?_map]
  · intro h; simp [notify, h, List.getElem?_map]

/-- Witness for C7: one full minute subscriber (capacity 1, one queued
event) drops the new Event and keeps its queue, while the other subscriber
with space receives it. -/
theorem C7_nonblocking_isolation_witness :
    (notify ⟨[⟨1, [⟨1, 1, 1⟩]⟩, ⟨25, []⟩], [], [], []⟩ ⟨11, 6, 0⟩ true true).minuteListeners[0]? =
      some ⟨1, [⟨1, 1, 1⟩]⟩
    ∧ (notify ⟨[⟨1, [⟨1, 1, 1⟩]⟩, ⟨25, []⟩], [], [], []⟩ ⟨11, 6, 0⟩ true true).minuteListeners[1]? =
      some ⟨25, [⟨11, 6, 0⟩]⟩ :=
  ⟨((C7_nonblocking_isolation ⟨[⟨1, [⟨1, 1, 1⟩]⟩, ⟨25, []⟩], [], [], []⟩
      ⟨11, 6, 0⟩ true true ⟨1, []⟩ 0).2.1).trans (by decide),
   ((C7_nonblocking_isolation ⟨[⟨1, [⟨1, 1, 1⟩]⟩, ⟨25, []⟩], [], [], []⟩
      ⟨11, 6, 0⟩ true true ⟨1, []⟩ 1).2.1).trans (by decide)⟩

/-- From a returned loop, any further action leaves the loop returned and
the poller state (hence every subscriber queue) untouched. -/
theorem loopStep_done {interval : Int} {s : RunState} (hpc : s.pc = .done)
    (a : Act) :
    (loopStep interval s a).pc = .done ∧ (loopStep interval s a).ps = s.ps := by
  cases a <;> simp [loopStep, hpc]

/-- C8 counterexample: with a request in flight (pc `inflight` on a
progressing response) and one minute subscriber, `Stop` closes the channel
— `stop()` has returned — yet the in-flight request's completion still
runs `newHeight` and delivers an Event to the subscriber, because `run`
builds the request context from `WithTimeout` only and never cancels it on
close. This contradicts post-stop silence as claimed. -/
theorem C8_counterexample :
    (loopStep 1000000000
        ⟨.inflight (.ok ⟨11, 10, 6, 600⟩), false,
          ⟨60000000000, 0, ⟨⟨10, 10, 5⟩, ⟨[⟨25, []⟩], [], [], []⟩⟩⟩⟩ .stop).closed = true
    ∧ (loopStep 1000000000
        ⟨.inflight (.ok ⟨11, 10, 6, 600⟩), false,
          ⟨60000000000, 0, ⟨⟨10, 10, 5⟩, ⟨[⟨25, []⟩], [], [], []⟩⟩⟩⟩
        .stop).ps.mon.ls.minuteListeners = [⟨25, []⟩]
    ∧ (loopStep 1000000000
        (loopStep 1000000000
          ⟨.inflight (.ok ⟨11, 10, 6, 600⟩), false,
            ⟨60000000000, 0, ⟨⟨10, 10, 5⟩, ⟨[⟨25, []⟩], [], [], []⟩⟩⟩⟩ .stop)
        (.complete 500000000)).ps.mon.ls.minuteListeners = [⟨25, [⟨11, 10, 6⟩]⟩] := by
  decide

/-- C8 amended: once the close channel is closed, every wait point of the
loop (the top select and the adaptive-sleep select) exits the loop when its
close branch is taken, and after the loop has returned no action ever
changes the poller state — no Event, height, committed-height or error is
delivered on any subscription. Between `stop()` returning and the loop
observing the close signal, however, an in-flight iteration may still
deliver. -/
theorem C8_stop_silence (interval : Int) (s : RunState) (acts : List Act) :
    (s.closed = true → (s.pc = .top ∨ s.pc = .sleeping) →
        (loopStep interval s .observeClose).pc = .done)
    ∧ (s.pc = .done →
        (loopRun interval s acts).pc = .done
        ∧ (loopRun interval s acts).ps = s.ps) := by
  constructor
  · intro hcl hpc
    rcases hpc with hpc | hpc <;> simp [loopStep, hcl, hpc]
  · intro hpc
    induction acts generalizing s with
    | nil => exact ⟨hpc, rfl⟩
    | cons a as ih =>
        have h1 := @loopStep_done interval s hpc a
        have h2 := ih (loopStep interval s a) h1.1
        refine ⟨?_, ?_⟩
        · simpa [loopRun] using h2.1
        · have : (loopRun interval s (a :: as)).ps =
              (loopRun interval (loopStep interval s a) as).ps := by
            simp [loopRun]
          rw [this, h2.2, h1.2]

/-- Witness for C8 amended: a closed loop at its top select exits, and a
returned loop processes further tick and completion actions without any
delivery. -/
theorem C8_stop_silence_witness :
    (loopStep 1000000000
        ⟨.top, true, ⟨60000000000, 0, ⟨⟨10, 10, 5⟩, ⟨[⟨25, []⟩], [], [], []⟩⟩⟩⟩
        .observeClose).pc = .done
    ∧ (loopRun 1000000000
        ⟨.done, true, ⟨60000000000, 0, ⟨⟨10, 10, 5⟩, ⟨[⟨25, []⟩], [], [], []⟩⟩⟩⟩
        [.tickFire (.ok ⟨12, 11, 0, 600⟩), .complete 7, .wake]).ps =
      ⟨60000000000, 0, ⟨⟨10, 10, 5⟩, ⟨[⟨25, []⟩], [], [], []⟩⟩⟩ :=
  ⟨(C8_stop_silence 1000000000
      ⟨.top, true, ⟨60000000000, 0, ⟨⟨10, 10, 5⟩, ⟨[⟨25, []⟩], [], [], []⟩⟩⟩⟩
      []).1 rfl (Or.inl rfl),
   ((C8_stop_silence 1000000000
      ⟨.done, true, ⟨60000000000, 0, ⟨⟨10, 10, 5⟩, ⟨[⟨25, []⟩], [], [], []⟩⟩⟩⟩
      [.tickFire (.ok ⟨12, 11, 0, 600⟩), .complete 7, .wake]).2 rfl).2⟩

/-- C9: on a successful poll whose Observation makes minute-or-stronger
progress, the loop enters the adaptive sleep of duration
(nominal − interval) exactly when the absolute difference between the
wall-clock gap since the previous transition and the nominal minute
duration is below one poll interval, and it resets `last`; without
progress, and on request failure, it keeps polling once per interval. -/
theorem C9_adaptive_sleep (interval : Int) (ps : PollerState)
    (resp : MinuteResponse) (now : Int) :
    ((newHeight ps.mon resp).2 = true →
      ((runStep interval ps (.ok resp) now).2 = .sleep (ps.nominal - interval) ↔
        |ps.nominal - (now - ps.last)| < interval)
      ∧ (runStep interval ps (.ok resp) now).1.last = now
      ∧ (runStep interval ps (.ok resp) now).1.nominal = ps.nominal)
    ∧ ((newHeight ps.mon resp).2 = false →
        (runStep interval ps (.ok resp) now).2 = .noSleep
        ∧ (runStep interval ps (.ok resp) now).1 =
            ⟨ps.nominal, ps.last, (newHeight ps.mon resp).1⟩)
    ∧ (∀ e, (runStep interval ps (.error e) now).2 = .noSleep) := by
  have habs : (if ps.nominal - (now - ps.last) < 0
        then -(ps.nominal - (now - ps.last))
        else ps.nominal - (now - ps.last)) = |ps.nominal - (now - ps.last)| := by
    rcases lt_or_ge (ps.nominal - (now - ps.last)) 0 with hlt | hge
    · rw [if_pos hlt, abs_of_neg hlt]
    · rw [if_neg (not_lt.mpr hge), abs_of_nonneg hge]
  refine ⟨fun h => ?_, fun h => ?_, fun e => rfl⟩
  · simp only [runStep, h, if_true]
    rw [habs]
    by_cases hc : |ps.nominal - (now - ps.last)| < interval
    · rw [if_pos hc]
      exact ⟨by simp [hc], rfl, rfl⟩
    · rw [if_neg hc]
      refine ⟨?_, rfl, rfl⟩
      simp only [hc, iff_false]
      intro hx
      simp at hx
  · simp only [runStep, h, if_false]
    exact ⟨rfl, rfl⟩

/-- Witness for C9: nominal 60 s, previous transition 60.0000005 s ago —
within one second of nominal — so the loop sleeps nominal − interval. -/
theorem C9_adaptive_sleep_witness :
    (runStep 1000000000 ⟨60000000000, 0, ⟨⟨10, 10, 5⟩, ⟨[], [], [], []⟩⟩⟩
        (.ok ⟨11, 10, 6, 600⟩) 60000000500).2 =
      .sleep (60000000000 - 1000000000) :=
  ((C9_adaptive_sleep 1000000000 ⟨60000000000, 0, ⟨⟨10, 10, 5⟩, ⟨[], [], [], []⟩⟩⟩
      ⟨11, 10, 6, 600⟩ 60000000500).1 (by decide)).1.mpr (by decide)

/-- C10: the nominal minute duration is computed once at loop entry from
the seed Observation's `DBlockSeconds` (Go's truncating division of the
duration by 10); every iteration preserves it, and the entire outcome of
an iteration is unchanged if the polled Observation's `DBlockSeconds` is
replaced by any other value. -/
theorem C10_nominal_from_seed_only (seed : MinuteResponse) (now interval t d : Int)
    (ps : PollerState) (res : Except Err MinuteResponse) (resp : MinuteResponse) :
    (runInit seed now).nominal = Int.tdiv (seed.DBlockSeconds * nsPerSecond) 10
    ∧ (runStep interval ps res t).1.nominal = ps.nominal
    ∧ runStep interval ps
        (.ok ⟨resp.DBHeight, resp.LeaderHeight, resp.Minute, d⟩) t =
      runStep interval ps (.ok resp) t := by
  refine ⟨rfl, ?_, ?_⟩
  · cases res with
    | error e => rfl
    | ok r =>
        simp only [runStep]
        split_ifs <;> rfl
  · cases resp
    rfl

end FactomMonitor
